import Mathlib

/-!
Shallow embedding of `network/network.py` (dynamic-talking-heads).

The repository's own code is the module-composition logic of five networks
(MotionEncoder, DynamicAdder, Embedder, Generator, Discriminator).  Tensors
are modelled as a shape (list of dimension sizes) together with a flat
row-major data list.  Framework operations (`torch.cat`, `torch.bmm`,
`view`, indexing, broadcasting, pooling, activations, assertions) are
embedded with their documented shape semantics and explicit failure
(`Except`).  The residual building blocks live in `network/components.py`,
which is not part of the sources; they are modelled from the spec as opaque
learned transformations with a fixed shape contract.
-/

namespace DTH

/-- Runtime failures of a forward pass / constructor, mirroring the Python
exception classes that the code can raise. -/
inductive TErr where
  | assertionError
  | typeError
  | indexError
  | keyError
  | runtimeError
deriving DecidableEq, Repr

/-- A tensor: row-major data list together with its shape. -/
structure Tensor (α : Type) where
  shape : List ℕ
  data : List α
deriving Repr

/-- Number of dimensions (`Tensor.dim()` in torch). -/
def Tensor.dim {α : Type} (t : Tensor α) : ℕ := t.shape.length

/-- Number of elements (`Tensor.numel()` in torch). -/
def Tensor.numel {α : Type} (t : Tensor α) : ℕ := t.shape.prod

/-- Row-major flattening of a multi-index. -/
def flattenIdx : List ℕ → List ℕ → ℕ
  | [], _ => 0
  | _, [] => 0
  | _ :: ds, a :: as => a * ds.prod + flattenIdx ds as

/-- Inverse of `flattenIdx`: decode a flat index into a multi-index. -/
def unflattenIdx : List ℕ → ℕ → List ℕ
  | [], _ => []
  | d :: ds, i => (i / ds.prod) % d :: unflattenIdx ds (i % ds.prod)

section TensorOps

variable {α : Type} [LinearOrderedField α]

/-- Entry of a tensor at a multi-index (0 when out of range; the embedding
never relies on out-of-range reads). -/
def Tensor.entry (t : Tensor α) (mi : List ℕ) : α :=
  t.data.getD (flattenIdx t.shape mi) 0

/-- Python `assert expr`: raises `AssertionError` when the condition is
false. -/
def pyAssert (b : Bool) : Except TErr Unit :=
  if b then .ok () else .error .assertionError

/-- `torch.cat((x, y), dim=1)` for two rank-4 tensors. -/
def catDim1 (x y : Tensor α) : Except TErr (Tensor α) :=
  match x.shape, y.shape with
  | [b, c1, h, w], [b', c2, h', w'] =>
    if b' = b ∧ h' = h ∧ w' = w then
      .ok ⟨[b, c1 + c2, h, w], (List.range (b * (c1 + c2) * h * w)).map fun i =>
        let mi := unflattenIdx [b, c1 + c2, h, w] i
        if mi.getD 1 0 < c1 then x.entry mi
        else y.entry (mi.set 1 (mi.getD 1 0 - c1))⟩
    else .error .runtimeError
  | _, _ => .error .runtimeError

/-- `Tensor.unsqueeze(-1)`: append a trailing dimension of size 1. -/
def unsqueezeLast (t : Tensor α) : Tensor α := ⟨t.shape ++ [1], t.data⟩

/-- Swap entries `i` and `j` of a list (used for `transpose`). -/
def swapIdx (l : List ℕ) (i j : ℕ) : List ℕ :=
  (l.set i (l.getD j 0)).set j (l.getD i 0)

/-- `Tensor.transpose(d0, d1)`: swap two dimensions, reindexing the data. -/
def transposeDims (d0 d1 : ℕ) (t : Tensor α) : Except TErr (Tensor α) :=
  if d0 < t.dim ∧ d1 < t.dim then
    let s := swapIdx t.shape d0 d1
    .ok ⟨s, (List.range s.prod).map fun i => t.entry (swapIdx (unflattenIdx s i) d0 d1)⟩
  else .error .runtimeError

/-- `Tensor.view` / `Tensor.reshape` with an optional single `-1` entry to
be inferred. -/
def tensorView (t : Tensor α) (dims : List ℤ) : Except TErr (Tensor α) :=
  let numel := t.shape.prod
  if dims.count (-1) = 0 then
    if (∀ d ∈ dims, 0 ≤ d) ∧ (dims.map Int.toNat).prod = numel then
      .ok ⟨dims.map Int.toNat, t.data⟩
    else .error .runtimeError
  else if dims.count (-1) = 1 ∧ (∀ d ∈ dims, d = -1 ∨ 0 ≤ d) then
    let p := ((dims.filter (fun d => d ≠ -1)).map Int.toNat).prod
    if 0 < p ∧ p ∣ numel then
      .ok ⟨dims.map (fun d => if d = -1 then numel / p else d.toNat), t.data⟩
    else .error .runtimeError
  else .error .runtimeError

/-- Right-aligned broadcast of two shapes (both given reversed). -/
def bcRev : List ℕ → List ℕ → Option (List ℕ)
  | [], l => some l
  | l, [] => some l
  | a :: as, b :: bs =>
    match bcRev as bs with
    | none => none
    | some rest =>
      if a = b then some (a :: rest)
      else if a = 1 then some (b :: rest)
      else if b = 1 then some (a :: rest)
      else none

/-- Shape of a broadcast binary operation, `none` when incompatible. -/
def broadcastShape (s1 s2 : List ℕ) : Option (List ℕ) :=
  (bcRev s1.reverse s2.reverse).map List.reverse

/-- Project a multi-index of the broadcast result onto an operand. -/
def bcProj (s : List ℕ) (mi : List ℕ) : List ℕ :=
  (List.zip s (mi.drop (mi.length - s.length))).map fun p => if p.1 = 1 then 0 else p.2

/-- Elementwise `+` with torch broadcasting. -/
def broadcastAdd (a b : Tensor α) : Except TErr (Tensor α) :=
  match broadcastShape a.shape b.shape with
  | some s => .ok ⟨s, (List.range s.prod).map fun i =>
      let mi := unflattenIdx s i
      a.entry (bcProj a.shape mi) + b.entry (bcProj b.shape mi)⟩
  | none => .error .runtimeError

/-- `torch.bmm`: batched matrix multiply of two 3-D tensors. -/
def bmm (a b : Tensor α) : Except TErr (Tensor α) :=
  match a.shape, b.shape with
  | [bt, n, m], [bt', m', p] =>
    if bt' = bt ∧ m' = m then
      .ok ⟨[bt, n, p], (List.range (bt * n * p)).map fun i =>
        let mi := unflattenIdx [bt, n, p] i
        (((List.range m).map fun k =>
          a.entry [mi.getD 0 0, mi.getD 1 0, k] * b.entry [mi.getD 0 0, k, mi.getD 2 0]).sum)⟩
    else .error .runtimeError
  | _, _ => .error .runtimeError

/-- `F.relu`: pointwise `max 0`. -/
def Tensor.relu (t : Tensor α) : Tensor α :=
  ⟨t.shape, t.data.map fun v => max v 0⟩

/-- Pointwise application of a scalar function (used for `torch.sigmoid`,
whose idealized real-valued form is supplied at the call sites of the
theorems). -/
def Tensor.mapData (f : α → α) (t : Tensor α) : Tensor α :=
  ⟨t.shape, t.data.map f⟩

/-- `nn.AdaptiveMaxPool2d((1, 1))`: global spatial max pooling. -/
def adaptiveMaxPool11 (t : Tensor α) : Except TErr (Tensor α) :=
  match t.shape with
  | [b, c, h, w] =>
    if 0 < h ∧ 0 < w then
      .ok ⟨[b, c, 1, 1], (List.range (b * c)).map fun i =>
        ((List.range (h * w)).map fun j =>
          t.entry [i / c, i % c, j / w, j % w]).foldl max (t.entry [i / c, i % c, 0, 0])⟩
    else .error .runtimeError
  | _ => .error .runtimeError

/-- Python semantics of an integer used to index dimension of size `n`:
negative values count from the end; `none` when out of bounds. -/
def pyColIdx (n : ℕ) (k : ℤ) : Option ℕ :=
  let j := if k < 0 then k + n else k
  if 0 ≤ j ∧ j < n then some j.toNat else none

/-- An index argument as accepted by `Discriminator.forward`: a plain
Python integer, or an integer tensor with one id per sample. -/
inductive PyIndex where
  | scalar (k : ℤ)
  | tensor (ks : List ℤ)

/-- `W[:, i]` for a rank-2 tensor `W`: column selection by a Python int
(result rank 1) or by an integer tensor (result rank 2). -/
def selectCols (W : Tensor α) (i : PyIndex) : Except TErr (Tensor α) :=
  match W.shape with
  | [r, n] =>
    match i with
    | .scalar k =>
      match pyColIdx n k with
      | some j => .ok ⟨[r], (List.range r).map fun a => W.entry [a, j]⟩
      | none => .error .indexError
    | .tensor ks =>
      if ks.all fun k => (pyColIdx n k).isSome then
        .ok ⟨[r, ks.length], (List.range (r * ks.length)).map fun a =>
          W.entry [a / ks.length, (pyColIdx n (ks.getD (a % ks.length) 0)).getD 0]⟩
      else .error .indexError
  | _ => .error .runtimeError

end TensorOps

/-! ## Weight initialization (`weights_init`, network.py lines 12-22) -/

/-- Initialization state of a parameter tensor, described declaratively:
either untouched, sampled from `Normal(mean, std)`, Xavier-uniform, or
filled with a constant. -/
inductive InitDist where
  | default
  | normal (mean std : ℚ)
  | xavierUniform
  | fill (c : ℚ)
deriving DecidableEq, Repr

/-- A torch layer as seen by `weights_init`: its class name together with
the (declaratively recorded) initialization of its weight and bias. -/
structure PyLayer where
  classname : List Char
  weight : InitDist
  bias : InitDist
deriving DecidableEq, Repr

/-- Python `s.find(sub) != -1`: `sub` occurs as a contiguous substring. -/
def pyFound (s sub : List Char) : Bool :=
  s.tails.any fun t => sub.isPrefixOf t

/-- `weights_init` (network.py lines 12-22): an `if` on `Conv2d`, then an
independent `if` on `Linear` with an `elif` on `InstanceNorm2d`. -/
def weights_init (m : PyLayer) : PyLayer :=
  let m := if pyFound m.classname "Conv2d".toList
    then { m with weight := .normal 0 (2/100) } else m
  if pyFound m.classname "Linear".toList then
    { m with weight := .xavierUniform, bias := .fill 0 }
  else if pyFound m.classname "InstanceNorm2d".toList then
    { m with weight := .normal 1 (2/100), bias := .fill 0 }
  else m

/-! ## Generator psi-slice table (network.py lines 140-147, 216-233) -/

/-- `Generator.ADAIN_LAYERS` (network.py lines 140-147): ordered table of
(decoder layer name, input channels, output channels). -/
def ADAIN_LAYERS : List (String × ℕ × ℕ) :=
  [("deconv6", 512, 512), ("deconv5", 512, 512), ("deconv4", 512, 256),
   ("deconv3", 256, 128), ("deconv2", 128, 64), ("deconv1", 64, 3)]

/-- Loop body of `define_psi_slices`: builds `(layer, (start_idx, end_idx))`
entries in traversal order, with `end_idx = start_idx + c1*2 + c2*2`. -/
def psiSlicesAux (startIdx : ℕ) : List (String × ℕ × ℕ) → List (String × ℕ × ℕ)
  | [] => []
  | (layer, c1, c2) :: rest =>
    let endIdx := startIdx + c1 * 2 + c2 * 2
    (layer, startIdx, endIdx) :: psiSlicesAux endIdx rest

/-- Final value of `end_idx` after the loop of `define_psi_slices`
(0 for the empty table, as in the Python initialization). -/
def psiEndAux (startIdx : ℕ) : List (String × ℕ × ℕ) → ℕ
  | [] => startIdx
  | (_, c1, c2) :: rest => psiEndAux (startIdx + c1 * 2 + c2 * 2) rest

/-- `Generator.define_psi_slices` (network.py lines 224-233): returns the
slice table and the total psi length. -/
def define_psi_slices (d : List (String × ℕ × ℕ)) : List (String × ℕ × ℕ) × ℕ :=
  (psiSlicesAux 0 d, psiEndAux 0 d)

/-- Sum of the psi widths of the first `k` layers: the start offset of
layer `k` in the psi vector. -/
def psiPrefix (d : List (String × ℕ × ℕ)) (k : ℕ) : ℕ :=
  psiEndAux 0 (d.take k)

/-- Python dict lookup `d[key]` on an association list (dict keys are
unique in the source tables): first match or `KeyError`. -/
def pyDictGet {β : Type} (d : List (String × β)) (key : String) : Except TErr β :=
  match d.find? fun p => p.1 == key with
  | some p => .ok p.2
  | none => .error .keyError

/-- Python slice `l[a:b]` (for `0 ≤ a ≤ b`). -/
def pySlice {β : Type} (l : List β) (a b : ℕ) : List β :=
  (l.drop a).take (b - a)

/-- `Generator.slice_psi` (network.py lines 216-222), per sample: looks up
the layer's reserved range and its channel widths, slices the psi vector,
and splits it into `(mean1, std1, mean2, std2)`.  The trailing `unsqueeze`
of the source only adds a size-1 dimension and is dropped here. -/
def slice_psi {β : Type} (PSI_PORTIONS ADAIN : List (String × ℕ × ℕ))
    (psi : List β) (portion : String) :
    Except TErr (List β × List β × List β × List β) := do
  let (idx0, idx1) ← pyDictGet PSI_PORTIONS portion
  let (len1, len2) ← pyDictGet ADAIN portion
  let aux := pySlice psi idx0 idx1
  .ok (pySlice aux 0 len1, pySlice aux len1 (2 * len1),
       pySlice aux (2 * len1) (2 * len1 + len2), aux.drop (2 * len1 + len2))

/-- Modelled from the spec: `config.E_VECTOR_LENGTH` (the file `config.py`
is absent from the sources).  The spec fixes the Embedder output as the
globally pooled 512-channel feature reshaped to a vector of this length,
so the constant is 512. -/
def E_VECTOR_LENGTH : ℕ := 512

/-! ## Building blocks, modelled from the spec

`network/components.py` is absent from the sources.  Per spec section 6 the
blocks are opaque learned transformations with a fixed shape contract
(channel-in, channel-out, optional resample factor); the downsampling
blocks halve each spatial dimension (spec section 4.1 comments
256 -> 128 -> ... -> 4) and need at least a 2x2 input, the attention and
plain residual blocks preserve the shape.  Learned values are opaque: each
block carries an arbitrary data function whose output is normalized to the
contract length. -/

section Blocks

variable {α : Type} [LinearOrderedField α]

/-- Modelled from the spec: `ResidualBlockDown(cin, cout)` from
`network/components.py` — shape contract `[B, cin, H, W] ->
[B, cout, H/2, W/2]`, values opaque. -/
structure RBDown (α : Type) where
  cin : ℕ
  cout : ℕ
  f : Tensor α → List α

/-- Run a downsampling residual block on a tensor. -/
def RBDown.run (blk : RBDown α) (t : Tensor α) : Except TErr (Tensor α) :=
  match t.shape with
  | [b, c, h, w] =>
    if c = blk.cin ∧ 2 ≤ h ∧ 2 ≤ w then
      .ok ⟨[b, blk.cout, h / 2, w / 2], (blk.f t).takeD ([b, blk.cout, h / 2, w / 2].prod) 0⟩
    else .error .runtimeError
  | _ => .error .runtimeError

/-- Modelled from the spec: `SelfAttention(ch)` from
`network/components.py` — shape-preserving on `[B, ch, H, W]`. -/
structure SelfAtt (α : Type) where
  ch : ℕ
  f : Tensor α → List α

/-- Run a self-attention block on a tensor. -/
def SelfAtt.run (blk : SelfAtt α) (t : Tensor α) : Except TErr (Tensor α) :=
  match t.shape with
  | [b, c, h, w] =>
    if c = blk.ch then
      .ok ⟨[b, c, h, w], (blk.f t).takeD ([b, c, h, w].prod) 0⟩
    else .error .runtimeError
  | _ => .error .runtimeError

/-- Modelled from the spec: `ResidualBlock(ch)` from
`network/components.py` — shape-preserving on `[B, ch, H, W]`. -/
structure RBSame (α : Type) where
  ch : ℕ
  f : Tensor α → List α

/-- Run a non-resampling residual block on a tensor. -/
def RBSame.run (blk : RBSame α) (t : Tensor α) : Except TErr (Tensor α) :=
  match t.shape with
  | [b, c, h, w] =>
    if c = blk.ch then
      .ok ⟨[b, c, h, w], (blk.f t).takeD ([b, c, h, w].prod) 0⟩
    else .error .runtimeError
  | _ => .error .runtimeError

end Blocks

/-! ## Layer configuration records (shape-level) -/

/-- `nn.Linear(inF, outF)` configuration. -/
structure LinearCfg where
  inF : ℕ
  outF : ℕ
deriving DecidableEq, Repr

/-- `nn.InstanceNorm2d(ch, affine=True)` configuration. -/
structure InstanceNormCfg where
  ch : ℕ
deriving DecidableEq, Repr

/-- `ResidualBlockUp(cin, cout, upsample=k)` configuration
(DynamicAdder decoder; modelled from the spec, components.py absent). -/
structure RBUpCfg where
  cin : ℕ
  cout : ℕ
  upsample : ℕ
deriving DecidableEq, Repr

/-- `AdaptiveResidualBlockUp(cin, cout, upsample=k)` configuration
(Generator decoder; modelled from the spec, components.py absent). -/
structure AdaRBUpCfg where
  cin : ℕ
  cout : ℕ
  upsample : ℕ
deriving DecidableEq, Repr

/-- `SelfAttention(ch)` configuration. -/
structure SelfAttCfg where
  ch : ℕ
deriving DecidableEq, Repr

/-! ## Python-level constructor calls -/

/-- A Python value passed to a torch constructor. -/
inductive PyVal (α : Type) where
  | tensor (t : Tensor α)
  | int (n : ℤ)
  | bool (b : Bool)

/-- `nn.Parameter(data, requires_grad)`: `torch.Tensor._make_subclass`
raises `TypeError` unless `data` is a tensor. -/
def nnParameter {α : Type} (data : PyVal α) (_requiresGrad : PyVal α) :
    Except TErr (Tensor α) :=
  match data with
  | .tensor t => .ok t
  | _ => .error .typeError

/-- `nn.Module.__init__` called with `extraArgs` positional arguments
beyond `self`: raises `TypeError` unless there are none. -/
def nnModuleSuperInit (extraArgs : ℕ) : Except TErr Unit :=
  if extraArgs = 0 then .ok () else .error .typeError

/-- `torch.rand(shape).normal_(...)`: a tensor of the given shape whose
sampled values are abstracted as an input list (padded/truncated to the
shape's length). -/
def torchRand {α : Type} [LinearOrderedField α] (shape : List ℕ) (vals : List α) : Tensor α :=
  ⟨shape, vals.takeD shape.prod 0⟩

/-! ## MotionEncoder (network.py lines 25-69)

Claim C6 is a pure dataflow property, so `MotionEncoder.forward` is
embedded generically over an arbitrary value type with the layers as
opaque functions; the sequence of assignments mirrors lines 51-69 of the
source exactly, including each assignment that shadows the previous
`out`. -/

/-- `MotionEncoder.forward` (network.py lines 51-69).  `view1` models
`x.view(-1, C, H, W)` (line 53), `view2` models `x.view(B, K, -1)`
(line 66); the remaining arguments are the layers in declaration order. -/
def motionEncoderForward {γ : Type}
    (conv1 in1_e conv2 in2_e conv3 in3_e conv4 in4_e : γ → γ)
    (pooling relu gru fc : γ → γ) (view1 view2 : γ → γ) (x0 : γ) : γ × γ :=
  let x := view1 x0
  let out := conv1 x
  let out := in1_e x
  let out := conv2 x
  let out := in2_e x
  let out := conv3 x
  let out := in3_e x
  let out := conv4 x
  let out := in4_e x
  let out := relu (pooling out)
  let x := view2 x
  let early := fc x
  let static := gru out
  (static, early)

/-! ## DynamicAdder (network.py lines 72-93) -/

/-- Layer graph of `DynamicAdder` (fields in declaration order). -/
structure DynAdderState where
  fc : LinearCfg
  deconv2 : RBUpCfg
  in2_d : InstanceNormCfg
  deconv1 : RBUpCfg
  in1_d : InstanceNormCfg
deriving DecidableEq, Repr

/-- `DynamicAdder.__init__` (network.py lines 76-86): the source calls
`super(DynamicAdder, self).__init__(self)`, passing `self` as an extra
positional argument to `nn.Module.__init__`. -/
def dynamicAdderInit : Except TErr DynAdderState := do
  let _ ← nnModuleSuperInit 1
  .ok { fc := ⟨1, 16⟩,
        deconv2 := ⟨128, 128, 4⟩, in2_d := ⟨128⟩,
        deconv1 := ⟨128, 128, 4⟩, in1_d := ⟨128⟩ }

/-! ## Generator construction (network.py lines 149-183) -/

/-- State built by `Generator.__init__` (fields in declaration order). -/
structure GenState (α : Type) where
  PSI_PORTIONS : List (String × ℕ × ℕ)
  psi_length : ℕ
  projection : Tensor α
  static_fc : Tensor α
  fc : LinearCfg
  deconv6 : AdaRBUpCfg
  in6_d : InstanceNormCfg
  deconv5 : AdaRBUpCfg
  in5_d : InstanceNormCfg
  deconv4 : AdaRBUpCfg
  in4_d : InstanceNormCfg
  deconv3 : AdaRBUpCfg
  in3_d : InstanceNormCfg
  att2 : SelfAttCfg
  deconv2 : AdaRBUpCfg
  in2_d : InstanceNormCfg
  deconv1 : AdaRBUpCfg
  in1_d : InstanceNormCfg

/-- The Generator's projection parameter
`torch.rand(psi_length, E_VECTOR_LENGTH)` (network.py line 154), with the
sampled values abstract. -/
def generatorProjection {α : Type} [LinearOrderedField α]
    (d : List (String × ℕ × ℕ)) (vals : List α) : Tensor α :=
  torchRand [(define_psi_slices d).2, E_VECTOR_LENGTH] vals

/-- `Generator.__init__` (network.py lines 149-183): builds the psi-slice
table and the projection parameter, then executes
`self.static_fc = nn.Parameter(512, 512)` (line 155), which passes the
Python int `512` as the `data` argument of `nn.Parameter`. -/
def generatorInit {α : Type} [LinearOrderedField α] (projVals : List α) :
    Except TErr (GenState α) := do
  let _ ← nnModuleSuperInit 0
  let pp := define_psi_slices ADAIN_LAYERS
  let projection ← nnParameter (.tensor (generatorProjection ADAIN_LAYERS projVals)) (.bool true)
  let static_fc ← nnParameter (.int 512) (.int 512)
  .ok { PSI_PORTIONS := pp.1, psi_length := pp.2,
        projection := projection, static_fc := static_fc,
        fc := ⟨1, 16⟩,
        deconv6 := ⟨512, 512, 2⟩, in6_d := ⟨512⟩,
        deconv5 := ⟨512, 512, 2⟩, in5_d := ⟨512⟩,
        deconv4 := ⟨512, 256, 2⟩, in4_d := ⟨256⟩,
        deconv3 := ⟨256, 128, 2⟩, in3_d := ⟨128⟩,
        att2 := ⟨128⟩,
        deconv2 := ⟨128, 64, 2⟩, in2_d := ⟨64⟩,
        deconv1 := ⟨64, 3, 2⟩, in1_d := ⟨3⟩ }

/-! ## Embedder (network.py lines 96-136) -/

/-- Learned (opaque) values of the Embedder's blocks. -/
structure EmbWeights (α : Type) where
  f1 : Tensor α → List α
  f2 : Tensor α → List α
  f3 : Tensor α → List α
  fatt : Tensor α → List α
  f4 : Tensor α → List α
  f5 : Tensor α → List α
  f6 : Tensor α → List α

/-- `Embedder.forward` (network.py lines 119-136): the rank/channel
assertion, six downsampling blocks with attention after the third, global
max pooling, reshape to `E_VECTOR_LENGTH` and a final relu. -/
def embedderForward {α : Type} [LinearOrderedField α]
    (wts : EmbWeights α) (x : Tensor α) : Except TErr (Tensor α) := do
  let _ ← pyAssert ((x.dim == 4) && (x.shape.get? 1 == some 3))
  let out ← (RBDown.mk 3 64 wts.f1).run x
  let out ← (RBDown.mk 64 128 wts.f2).run out
  let out ← (RBDown.mk 128 256 wts.f3).run out
  let out ← (SelfAtt.mk 256 wts.fatt).run out
  let out ← (RBDown.mk 256 512 wts.f4).run out
  let out ← (RBDown.mk 512 512 wts.f5).run out
  let out ← (RBDown.mk 512 512 wts.f6).run out
  let pooled ← adaptiveMaxPool11 out
  let v ← tensorView pooled [-1, (E_VECTOR_LENGTH : ℤ)]
  .ok v.relu

/-! ## Discriminator (network.py lines 236-292) -/

/-- Learned (opaque) values of the Discriminator: the block data functions
and the sampled initial values of the parameters `W`, `w_0` and `b`. -/
structure DiscWeights (α : Type) where
  f1 : Tensor α → List α
  f2 : Tensor α → List α
  f3 : Tensor α → List α
  fatt : Tensor α → List α
  f4 : Tensor α → List α
  f5 : Tensor α → List α
  f6 : Tensor α → List α
  fres : Tensor α → List α
  WVals : List α
  w0Vals : List α
  bVals : List α

/-- `Discriminator.forward` (network.py lines 260-292), constructed with
`training_videos = n` (line 251 gives `W : [512, n]`, line 252
`w_0 : [512, 1]`, line 253 `b : [1]`).  `σ` is `torch.sigmoid`,
instantiated with the real logistic function in the theorems. -/
def discForward {α : Type} [LinearOrderedField α] (σ : α → α) (n : ℕ)
    (wts : DiscWeights α) (x y : Tensor α) (i : PyIndex) :
    Except TErr (Tensor α × List (Tensor α)) := do
  let _ ← pyAssert ((x.dim == 4) && (x.shape.get? 1 == some 3))
  let _ ← pyAssert (x.shape == y.shape)
  let out ← catDim1 x y
  let out_0 ← (RBDown.mk 6 64 wts.f1).run out
  let out_1 ← (RBDown.mk 64 128 wts.f2).run out_0
  let out_2 ← (RBDown.mk 128 256 wts.f3).run out_1
  let out_3 ← (SelfAtt.mk 256 wts.fatt).run out_2
  let out_4 ← (RBDown.mk 256 512 wts.f4).run out_3
  let out_5 ← (RBDown.mk 512 512 wts.f5).run out_4
  let out_6 ← (RBDown.mk 512 512 wts.f6).run out_5
  let out_7 ← (RBSame.mk 512 wts.fres).run out_6
  let pooled ← adaptiveMaxPool11 out_7
  let out ← tensorView pooled.relu [-1, 512, 1]
  let _out ← transposeDims 1 2 out
  let wcol ← selectCols (torchRand [512, n] wts.WVals) i
  let _W_i ← transposeDims 0 1 (unsqueezeLast wcol)
  let s ← broadcastAdd _W_i (torchRand [512, 1] wts.w0Vals)
  let prod ← bmm _out s
  let scored ← broadcastAdd prod (torchRand [1] wts.bVals)
  let outSig := Tensor.mapData σ scored
  let outFinal ← tensorView outSig [(x.shape.getD 0 0 : ℤ)]
  .ok (outFinal, [out_0, out_1, out_2, out_3, out_4, out_5, out_6, out_7])

/-! ## Structural lemmas about the psi-slice table -/

lemma psiEndAux_eq (s : ℕ) (l : List (String × ℕ × ℕ)) :
    psiEndAux s l = s + psiEndAux 0 l := by
  induction l generalizing s with
  | nil => simp [psiEndAux]
  | cons p r ih =>
    obtain ⟨nm, c1, c2⟩ := p
    simp only [psiEndAux]
    rw [ih, ih (0 + c1 * 2 + c2 * 2)]
    omega

lemma psiSlicesAux_length (s : ℕ) (d : List (String × ℕ × ℕ)) :
    (psiSlicesAux s d).length = d.length := by
  induction d generalizing s with
  | nil => rfl
  | cons p r ih =>
    obtain ⟨nm, c1, c2⟩ := p
    simp [psiSlicesAux, ih]

lemma psiPrefix_zero (d : List (String × ℕ × ℕ)) : psiPrefix d 0 = 0 := rfl

lemma psiPrefix_succ_cons (p : String × ℕ × ℕ) (r : List (String × ℕ × ℕ)) (k : ℕ) :
    psiPrefix (p :: r) (k + 1) = p.2.1 * 2 + p.2.2 * 2 + psiPrefix r k := by
  obtain ⟨nm, c1, c2⟩ := p
  simp only [psiPrefix, List.take_succ_cons, psiEndAux]
  rw [psiEndAux_eq]
  omega

lemma psiPrefix_le_succ (d : List (String × ℕ × ℕ)) (k : ℕ) :
    psiPrefix d k ≤ psiPrefix d (k + 1) := by
  induction d generalizing k with
  | nil => simp [psiPrefix]
  | cons p r ih =>
    cases k with
    | zero => exact Nat.zero_le _
    | succ k =>
      rw [psiPrefix_succ_cons, psiPrefix_succ_cons]
      exact Nat.add_le_add_left (ih k) _

lemma psiPrefix_monotone (d : List (String × ℕ × ℕ)) : Monotone (psiPrefix d) :=
  monotone_nat_of_le_succ (psiPrefix_le_succ d)

lemma psiPrefix_length (d : List (String × ℕ × ℕ)) :
    psiPrefix d d.length = psiEndAux 0 d := by
  rw [psiPrefix, List.take_length]

lemma psiSlicesAux_get? (d : List (String × ℕ × ℕ)) (s k : ℕ) :
    (psiSlicesAux s d).get? k =
      (d.get? k).map fun p => (p.1, s + psiPrefix d k, s + psiPrefix d (k + 1)) := by
  induction d generalizing s k with
  | nil => simp [psiSlicesAux]
  | cons p r ih =>
    obtain ⟨nm, c1, c2⟩ := p
    cases k with
    | zero =>
      simp [psiSlicesAux, psiPrefix_zero, psiPrefix_succ_cons, psiPrefix, psiEndAux,
        Nat.add_assoc]
      try omega
    | succ k =>
      simp only [psiSlicesAux, List.get?_cons_succ, ih, psiPrefix_succ_cons]
      cases r.get? k with
      | none => rfl
      | some q => simp [Nat.add_assoc]

lemma psiPrefix_width (d : List (String × ℕ × ℕ)) (k : ℕ) (nm : String) (c1 c2 : ℕ)
    (h : d.get? k = some (nm, c1, c2)) :
    psiPrefix d (k + 1) = psiPrefix d k + (2 * c1 + 2 * c2) := by
  induction d generalizing k with
  | nil => simp at h
  | cons p r ih =>
    cases k with
    | zero =>
      simp only [List.get?_cons_zero, Option.some.injEq] at h
      subst h
      rw [psiPrefix_succ_cons, psiPrefix_zero, psiPrefix_zero]
      dsimp only
      omega
    | succ k =>
      simp only [List.get?_cons_succ] at h
      rw [psiPrefix_succ_cons, psiPrefix_succ_cons, ih k h]
      omega

lemma bucket_exists (p : ℕ → ℕ) (h0 : p 0 = 0) (n j : ℕ) (hj : j < p n) :
    ∃ k, k < n ∧ p k ≤ j ∧ j < p (k + 1) := by
  induction n with
  | zero => omega
  | succ n ih =>
    by_cases hn : j < p n
    · obtain ⟨k, hk, h1, h2⟩ := ih hn
      exact ⟨k, Nat.lt_succ_of_lt hk, h1, h2⟩
    · exact ⟨n, Nat.lt_succ_self n, Nat.le_of_not_lt hn, hj⟩

lemma bucket_unique (p : ℕ → ℕ) (hp : ∀ k, p k ≤ p (k + 1)) (h0 : p 0 = 0)
    (n j : ℕ) (hj : j < p n) :
    ∃! k, k < n ∧ p k ≤ j ∧ j < p (k + 1) := by
  obtain ⟨k, hk, h1, h2⟩ := bucket_exists p h0 n j hj
  refine ⟨k, ⟨hk, h1, h2⟩, ?_⟩
  intro k' ⟨hk', h1', h2'⟩
  by_contra hne
  have mono : Monotone p := monotone_nat_of_le_succ hp
  rcases Nat.lt_or_ge k' k with hlt | hge
  · have : p (k' + 1) ≤ p k := mono hlt
    omega
  · have hlt : k < k' := lt_of_le_of_ne hge fun h => hne h.symm
    have : p (k + 1) ≤ p k' := mono hlt
    omega

lemma find?_of_get?_nodup {β : Type} (l : List (String × β))
    (hnd : (l.map fun p => p.1).Nodup) (k : ℕ) (key : String) (v : β)
    (h : l.get? k = some (key, v)) :
    l.find? (fun p => p.1 == key) = some (key, v) := by
  induction l generalizing k with
  | nil => simp at h
  | cons p r ih =>
    simp only [List.map_cons, List.nodup_cons] at hnd
    cases k with
    | zero =>
      simp only [List.get?_cons_zero, Option.some.injEq] at h
      subst h
      simp [List.find?]
    | succ k =>
      simp only [List.get?_cons_succ] at h
      have hkey : key ∈ r.map fun p => p.1 := by
        have hmem : (key, v) ∈ r := List.get?_mem h
        exact List.mem_map.mpr ⟨(key, v), hmem, rfl⟩
      have hne : p.1 ≠ key := fun he => hnd.1 (he ▸ hkey)
      rw [List.find?_cons_of_neg _ (by simp [hne]), ih hnd.2 k h]

lemma psiSlicesAux_names (s : ℕ) (d : List (String × ℕ × ℕ)) :
    ((psiSlicesAux s d).map fun p => p.1) = d.map fun p => p.1 := by
  induction d generalizing s with
  | nil => rfl
  | cons p r ih =>
    obtain ⟨nm, c1, c2⟩ := p
    simp [psiSlicesAux, ih]

/-- C2.  For every valid `ADAIN_LAYERS` table (an ordered table with
distinct layer names), the psi slice table built by `define_psi_slices`
assigns layer `k` (in the fixed traversal order) the contiguous range
`[psiPrefix d k, psiPrefix d (k+1))` of length `2*c1 + 2*c2`; the ranges
start at 0, are consecutive (hence non-overlapping), every range ends
within the total, every point below the total lies in exactly one range,
and the total equals the first dimension of the Generator's projection
parameter. -/
theorem psi_slice_table_partition (d : List (String × ℕ × ℕ))
    (hnd : (d.map fun p => p.1).Nodup) :
    (define_psi_slices d).1.length = d.length ∧
    psiPrefix d 0 = 0 ∧
    psiPrefix d d.length = (define_psi_slices d).2 ∧
    (∀ k nm c1 c2, d.get? k = some (nm, c1, c2) →
      (define_psi_slices d).1.get? k = some (nm, psiPrefix d k, psiPrefix d (k + 1)) ∧
      psiPrefix d (k + 1) = psiPrefix d k + (2 * c1 + 2 * c2)) ∧
    (∀ k, k < d.length → psiPrefix d (k + 1) ≤ (define_psi_slices d).2) ∧
    (∀ j, j < (define_psi_slices d).2 →
      ∃! k, k < d.length ∧ psiPrefix d k ≤ j ∧ j < psiPrefix d (k + 1)) ∧
    (∀ vals : List ℚ,
      (generatorProjection d vals).shape = [(define_psi_slices d).2, E_VECTOR_LENGTH]) := by
  have htot : psiPrefix d d.length = (define_psi_slices d).2 := psiPrefix_length d
  refine ⟨psiSlicesAux_length 0 d, psiPrefix_zero d, htot, ?_, ?_, ?_, fun _ => rfl⟩
  · intro k nm c1 c2 hk
    constructor
    · have := psiSlicesAux_get? d 0 k
      rw [hk] at this
      simpa using this
    · exact psiPrefix_width d k nm c1 c2 hk
  · intro k hk
    calc psiPrefix d (k + 1) ≤ psiPrefix d d.length := psiPrefix_monotone d hk
    _ = (define_psi_slices d).2 := htot
  · intro j hj
    exact bucket_unique (psiPrefix d) (psiPrefix_le_succ d) (psiPrefix_zero d)
      d.length j (htot ▸ hj)

/-- Witness for C2 at the source's fixed `ADAIN_LAYERS` table. -/
theorem psi_slice_table_partition_witness :
    ((ADAIN_LAYERS.map fun p => p.1).Nodup) ∧
    (define_psi_slices ADAIN_LAYERS).1.get? 0 =
      some ("deconv6", psiPrefix ADAIN_LAYERS 0, psiPrefix ADAIN_LAYERS 1) ∧
    psiPrefix ADAIN_LAYERS ADAIN_LAYERS.length = (define_psi_slices ADAIN_LAYERS).2 := by
  have h := psi_slice_table_partition ADAIN_LAYERS (by decide)
  exact ⟨by decide, (h.2.2.2.1 0 "deconv6" 512 512 rfl).1, h.2.2.1⟩

/-- C3.  For every valid table, every layer `k` with widths `(c1, c2)` and
every psi vector of the table's total length, `slice_psi` returns four
consecutive sub-vectors of sizes exactly `(c1, c1, c2, c2)`. -/
theorem slice_psi_sizes {γ : Type} (d : List (String × ℕ × ℕ))
    (hnd : (d.map fun p => p.1).Nodup) (k : ℕ) (nm : String) (c1 c2 : ℕ)
    (hk : d.get? k = some (nm, c1, c2)) (psi : List γ)
    (hlen : psi.length = (define_psi_slices d).2) :
    ∃ m1 s1 m2 s2, slice_psi (define_psi_slices d).1 d psi nm = .ok (m1, s1, m2, s2) ∧
      m1.length = c1 ∧ s1.length = c1 ∧ m2.length = c2 ∧ s2.length = c2 := by
  have hklt : k < d.length := by
    by_contra hge
    rw [List.get?_eq_none.mpr (Nat.le_of_not_lt hge)] at hk
    exact Option.noConfusion hk
  have htblget : (define_psi_slices d).1.get? k =
      some (nm, psiPrefix d k, psiPrefix d (k + 1)) := by
    have := psiSlicesAux_get? d 0 k
    rw [hk] at this
    simpa using this
  have htblnd : ((define_psi_slices d).1.map fun p => p.1).Nodup := by
    show ((psiSlicesAux 0 d).map fun p => p.1).Nodup
    rw [psiSlicesAux_names]
    exact hnd
  have e1 : pyDictGet (define_psi_slices d).1 nm =
      .ok (psiPrefix d k, psiPrefix d (k + 1)) := by
    unfold pyDictGet
    rw [find?_of_get?_nodup _ htblnd k nm _ htblget]
  have e2 : pyDictGet d nm = .ok (c1, c2) := by
    unfold pyDictGet
    rw [find?_of_get?_nodup _ hnd k nm _ hk]
  have hwidth : psiPrefix d (k + 1) = psiPrefix d k + (2 * c1 + 2 * c2) :=
    psiPrefix_width d k nm c1 c2 hk
  have hend : psiPrefix d (k + 1) ≤ (define_psi_slices d).2 := by
    calc psiPrefix d (k + 1) ≤ psiPrefix d d.length := psiPrefix_monotone d hklt
    _ = (define_psi_slices d).2 := psiPrefix_length d
  have heq : slice_psi (define_psi_slices d).1 d psi nm =
      .ok (pySlice (pySlice psi (psiPrefix d k) (psiPrefix d (k + 1))) 0 c1,
           pySlice (pySlice psi (psiPrefix d k) (psiPrefix d (k + 1))) c1 (2 * c1),
           pySlice (pySlice psi (psiPrefix d k) (psiPrefix d (k + 1))) (2 * c1) (2 * c1 + c2),
           (pySlice psi (psiPrefix d k) (psiPrefix d (k + 1))).drop (2 * c1 + c2)) := by
    simp only [slice_psi, e1, e2, bind, Except.bind]
  refine ⟨_, _, _, _, heq, ?_, ?_, ?_, ?_⟩
  all_goals
    simp only [pySlice, List.length_take, List.length_drop, hlen, hwidth]
    omega

/-- Witness for C3: the last layer `deconv1` of the fixed table, on a
zero psi vector of the correct total length 6918. -/
theorem slice_psi_sizes_witness :
    ADAIN_LAYERS.get? 5 = some ("deconv1", 64, 3) ∧
    (List.replicate 6918 (0 : ℚ)).length = (define_psi_slices ADAIN_LAYERS).2 ∧
    ∃ m1 s1 m2 s2,
      slice_psi (define_psi_slices ADAIN_LAYERS).1 ADAIN_LAYERS
        (List.replicate 6918 (0 : ℚ)) "deconv1" = .ok (m1, s1, m2, s2) ∧
      m1.length = 64 ∧ s1.length = 64 ∧ m2.length = 3 ∧ s2.length = 3 :=
  ⟨rfl, by rw [List.length_replicate]; decide,
   slice_psi_sizes ADAIN_LAYERS (by decide) 5 "deconv1" 64 3 rfl _
     (by rw [List.length_replicate]; decide)⟩

/-- C1 (code_bug evidence).  `Generator.__init__` always raises:
line 155 executes `self.static_fc = nn.Parameter(512, 512)`, passing the
Python int `512` as the `data` argument of `nn.Parameter`, which requires
a tensor (`TypeError`).  Construction therefore fails for every sampling
of the projection parameter, before any forward pass can run, so the
spec's concrete scenario (construct, then obtain a [2,3,256,256] output)
is unreachable in the code as written. -/
theorem generator_construction_crashes (projVals : List ℚ) :
    generatorInit projVals = .error .typeError := rfl

/-- C7.  `DynamicAdder.__init__` always raises: line 77 calls
`super(DynamicAdder, self).__init__(self)`, handing `self` to
`nn.Module.__init__` as an extra positional argument (`TypeError`), so no
`DynamicAdder` instance can be created. -/
theorem dynamic_adder_init_crashes : dynamicAdderInit = .error .typeError := rfl

/-- C6.  In `MotionEncoder.forward` every stage is applied to the raw
(reshaped) input `x`: the result is exactly
`(gru (relu (pool (in4_e x))), fc (view2 x))`, so the outputs of the
normalization layers `in1_e`, `in2_e`, `in3_e` (and of `conv1`..`conv3`)
are computed but never consumed — each convolution stage receives the
pre-normalization tensor, never the normalized one — and the result is
invariant under replacing those dead stages by arbitrary functions. -/
theorem motion_encoder_norm_dead_code {γ : Type}
    (conv1 in1_e conv2 in2_e conv3 in3_e conv4 in4_e : γ → γ)
    (pooling relu gru fc view1 view2 : γ → γ)
    (conv1' in1_e' conv2' in2_e' conv3' in3_e' : γ → γ) (x0 : γ) :
    motionEncoderForward conv1 in1_e conv2 in2_e conv3 in3_e conv4 in4_e
        pooling relu gru fc view1 view2 x0 =
      (gru (relu (pooling (in4_e (view1 x0)))), fc (view2 (view1 x0))) ∧
    motionEncoderForward conv1 in1_e conv2 in2_e conv3 in3_e conv4 in4_e
        pooling relu gru fc view1 view2 x0 =
      motionEncoderForward conv1' in1_e' conv2' in2_e' conv3' in3_e' conv4 in4_e
        pooling relu gru fc view1 view2 x0 :=
  ⟨rfl, rfl⟩

/-- C9.  The shared `weights_init` policy: layers whose class name
contains `Conv2d` get `Normal(0, 0.02)` weights; layers whose class name
contains `Linear` get Xavier-uniform weights and zero bias; layers whose
class name contains `InstanceNorm2d` get `Normal(1.0, 0.02)` weights and
zero bias (each case taken for a class name matching only its own
pattern, as is the case for the torch layer classes used here). -/
theorem weights_init_policy (m : PyLayer) :
    (pyFound m.classname "Conv2d".toList = true →
     pyFound m.classname "Linear".toList = false →
     pyFound m.classname "InstanceNorm2d".toList = false →
     weights_init m = { m with weight := .normal 0 (2/100) }) ∧
    (pyFound m.classname "Linear".toList = true →
     pyFound m.classname "Conv2d".toList = false →
     weights_init m = { m with weight := .xavierUniform, bias := .fill 0 }) ∧
    (pyFound m.classname "InstanceNorm2d".toList = true →
     pyFound m.classname "Linear".toList = false →
     pyFound m.classname "Conv2d".toList = false →
     weights_init m = { m with weight := .normal 1 (2/100), bias := .fill 0 }) := by
  refine ⟨?_, ?_, ?_⟩
  · intro h1 h2 h3
    simp at h1 h2 h3
    simp [weights_init, h1, h2, h3]
  · intro h1 h2
    simp at h1 h2
    simp [weights_init, h1, h2]
  · intro h1 h2 h3
    simp at h1 h2 h3
    simp [weights_init, h1, h2, h3]

/-- Witness for C9 at the three torch layer class names the models use. -/
theorem weights_init_policy_witness :
    weights_init ⟨"Conv2d".toList, .default, .default⟩ =
      ⟨"Conv2d".toList, .normal 0 (2/100), .default⟩ ∧
    weights_init ⟨"Linear".toList, .default, .default⟩ =
      ⟨"Linear".toList, .xavierUniform, .fill 0⟩ ∧
    weights_init ⟨"InstanceNorm2d".toList, .default, .default⟩ =
      ⟨"InstanceNorm2d".toList, .normal 1 (2/100), .fill 0⟩ :=
  ⟨(weights_init_policy _).1 (by decide) (by decide) (by decide),
   (weights_init_policy _).2.1 (by decide) (by decide),
   (weights_init_policy _).2.2 (by decide) (by decide) (by decide)⟩

/-! ## Reduction lemmas for the tensor operations -/

@[simp] lemma except_ok_bind {β γ' : Type} (a : β) (f : β → Except TErr γ') :
    (Except.ok a >>= f) = f a := rfl

@[simp] lemma except_error_bind {β γ' : Type} (e : TErr) (f : β → Except TErr γ') :
    ((Except.error e : Except TErr β) >>= f) = Except.error e := rfl

section OpLemmas

variable {α : Type} [LinearOrderedField α]

lemma pyAssert_ok {b : Bool} (h : b = true) : pyAssert b = .ok () := by
  simp [pyAssert, h]

lemma pyAssert_fail {b : Bool} (h : b = false) : pyAssert b = .error .assertionError := by
  simp [pyAssert, h]

lemma catDim1_ok (b c1 c2 h w : ℕ) (xd yd : List α) :
    ∃ dd, catDim1 ⟨[b, c1, h, w], xd⟩ ⟨[b, c2, h, w], yd⟩ = .ok ⟨[b, c1 + c2, h, w], dd⟩ :=
  ⟨_, by simp [catDim1]; rfl⟩

lemma RBDown_run_ok (cin cout : ℕ) (f : Tensor α → List α) (b h w : ℕ) (dd : List α)
    (hh : 2 ≤ h) (hw : 2 ≤ w) :
    ∃ d2, (RBDown.mk cin cout f).run ⟨[b, cin, h, w], dd⟩ =
      .ok ⟨[b, cout, h / 2, w / 2], d2⟩ :=
  ⟨_, by simp [RBDown.run, hh, hw]; rfl⟩

lemma SelfAtt_run_ok (ch : ℕ) (f : Tensor α → List α) (b h w : ℕ) (dd : List α) :
    ∃ d2, (SelfAtt.mk ch f).run ⟨[b, ch, h, w], dd⟩ = .ok ⟨[b, ch, h, w], d2⟩ :=
  ⟨_, by simp [SelfAtt.run]; rfl⟩

lemma RBSame_run_ok (ch : ℕ) (f : Tensor α → List α) (b h w : ℕ) (dd : List α) :
    ∃ d2, (RBSame.mk ch f).run ⟨[b, ch, h, w], dd⟩ = .ok ⟨[b, ch, h, w], d2⟩ :=
  ⟨_, by simp [RBSame.run]; rfl⟩

lemma adaptiveMaxPool11_ok (b c h w : ℕ) (dd : List α) (hh : 0 < h) (hw : 0 < w) :
    ∃ d2, adaptiveMaxPool11 ⟨[b, c, h, w], dd⟩ = .ok ⟨[b, c, 1, 1], d2⟩ :=
  ⟨_, by simp [adaptiveMaxPool11, hh, hw]; rfl⟩

lemma tensorView_pool_512 (b : ℕ) (l : List α) :
    tensorView ⟨[b, 512, 1, 1], l⟩ [-1, 512, 1] = .ok ⟨[b, 512, 1], l⟩ := by
  have hdvd : (512 : ℕ) ∣ [b, 512, 1, 1].prod := by
    simp [Nat.dvd_mul_left]
  have hq : [b, 512, 1, 1].prod / 512 = b := by
    simp [Nat.mul_div_assoc]
  simp [tensorView, hdvd, hq]

lemma tensorView_pool_E (b : ℕ) (l : List α) :
    tensorView ⟨[b, 512, 1, 1], l⟩ [-1, 512] = .ok ⟨[b, 512], l⟩ := by
  have hdvd : (512 : ℕ) ∣ [b, 512, 1, 1].prod := by
    simp [Nat.dvd_mul_left]
  have hq : [b, 512, 1, 1].prod / 512 = b := by
    simp [Nat.mul_div_assoc]
  simp [tensorView, hdvd, hq]

lemma tensorView_scores (b : ℕ) (l : List α) :
    tensorView ⟨[b, 1, 1], l⟩ [(b : ℤ)] = .ok ⟨[b], l⟩ := by
  have hne : ¬ ((b : ℤ) = -1) := by omega
  simp [tensorView, List.count_cons, hne]

lemma transposeDims12_ok (a b c : ℕ) (l : List α) :
    ∃ d2, transposeDims 1 2 ⟨[a, b, c], l⟩ = .ok ⟨[a, c, b], d2⟩ :=
  ⟨_, by simp [transposeDims, Tensor.dim, swapIdx]; rfl⟩

lemma transposeDims01_rank3_ok (a b c : ℕ) (l : List α) :
    ∃ d2, transposeDims 0 1 ⟨[a, b, c], l⟩ = .ok ⟨[b, a, c], d2⟩ :=
  ⟨_, by simp [transposeDims, Tensor.dim, swapIdx]; rfl⟩

lemma transposeDims01_rank2_ok (a b : ℕ) (l : List α) :
    ∃ d2, transposeDims 0 1 ⟨[a, b], l⟩ = .ok ⟨[b, a], d2⟩ :=
  ⟨_, by simp [transposeDims, Tensor.dim, swapIdx]; rfl⟩

lemma selectCols_tensor_ok (r n : ℕ) (wd : List α) (ks : List ℤ)
    (hks : ks.all (fun k => (pyColIdx n k).isSome) = true) :
    ∃ d2, selectCols ⟨[r, n], wd⟩ (.tensor ks) = .ok ⟨[r, ks.length], d2⟩ :=
  ⟨_, by simp [selectCols, hks]; rfl⟩

lemma selectCols_scalar_ok (r n : ℕ) (wd : List α) (k : ℤ) (j : ℕ)
    (hj : pyColIdx n k = some j) :
    ∃ d2, selectCols ⟨[r, n], wd⟩ (.scalar k) = .ok ⟨[r], d2⟩ :=
  ⟨_, by simp [selectCols, hj]; rfl⟩

lemma selectCols_tensor_fail (r n : ℕ) (wd : List α) (ks : List ℤ)
    (hks : ks.all (fun k => (pyColIdx n k).isSome) = false) :
    selectCols ⟨[r, n], wd⟩ (.tensor ks) = .error .indexError := by
  simp [selectCols, hks]

lemma selectCols_scalar_fail (r n : ℕ) (wd : List α) (k : ℤ)
    (hk : pyColIdx n k = none) :
    selectCols ⟨[r, n], wd⟩ (.scalar k) = .error .indexError := by
  simp [selectCols, hk]

lemma broadcastAdd_col_ok (m : ℕ) (ad bd : List α) :
    ∃ d2, broadcastAdd ⟨[m, 512, 1], ad⟩ ⟨[512, 1], bd⟩ = .ok ⟨[m, 512, 1], d2⟩ :=
  ⟨_, by simp [broadcastAdd, broadcastShape, bcRev]; rfl⟩

lemma broadcastAdd_bias_ok (b : ℕ) (ad bd : List α) :
    ∃ d2, broadcastAdd ⟨[b, 1, 1], ad⟩ ⟨[1], bd⟩ = .ok ⟨[b, 1, 1], d2⟩ :=
  ⟨_, by simp [broadcastAdd, broadcastShape, bcRev]; rfl⟩

lemma broadcastAdd_length (a b : Tensor α) (s : List ℕ) (d2 : List α)
    (h : broadcastAdd a b = .ok ⟨s, d2⟩) : d2.length = s.prod := by
  unfold broadcastAdd at h
  cases hb : broadcastShape a.shape b.shape with
  | none => rw [hb] at h; exact absurd h (by simp)
  | some s' =>
    rw [hb] at h
    simp only [Except.ok.injEq, Tensor.mk.injEq] at h
    obtain ⟨h1, h2⟩ := h
    subst h1
    rw [← h2]
    simp

lemma broadcastAdd_outer_ok (ad bd : List α) :
    ∃ d2, broadcastAdd ⟨[1, 512], ad⟩ ⟨[512, 1], bd⟩ = .ok ⟨[512, 512], d2⟩ :=
  ⟨_, by simp [broadcastAdd, broadcastShape, bcRev]; rfl⟩

lemma bmm_ok (b n' m p : ℕ) (ad bd : List α) :
    ∃ d2, bmm ⟨[b, n', m], ad⟩ ⟨[b, m, p], bd⟩ = .ok ⟨[b, n', p], d2⟩ :=
  ⟨_, by simp [bmm]; rfl⟩

lemma bmm_rank2_fail (s1 : List ℕ) (a b' : ℕ) (ad bd : List α) :
    bmm ⟨s1, ad⟩ ⟨[a, b'], bd⟩ = .error .runtimeError := by
  unfold bmm
  match s1 with
  | [] => rfl
  | [x] => rfl
  | [x, y] => rfl
  | [x, y, z] => rfl
  | x :: y :: z :: w :: r => rfl

lemma pyColIdx_isSome_of_range (n : ℕ) (k : ℤ)
    (h : (0 ≤ k ∧ k < (n : ℤ)) ∨ (-(n : ℤ) ≤ k ∧ k < 0)) :
    (pyColIdx n k).isSome = true := by
  rcases h with ⟨h1, h2⟩ | ⟨h1, h2⟩ <;>
    simp only [pyColIdx] <;> split_ifs <;> simp_all <;> omega

/-- Success path of `Discriminator.forward` on a well-formed pair of
3-channel inputs of spatial size at least 64x64, with an integer-tensor
index of one valid id per sample: the result is one sigmoid score per
sample and the 8 intermediate feature maps. -/
lemma disc_forward_ok (σ : α → α) (n : ℕ) (wts : DiscWeights α) (b h w : ℕ)
    (xd yd : List α) (ks : List ℤ) (hh : 64 ≤ h) (hw : 64 ≤ w) (hlen : ks.length = b)
    (hks : ks.all (fun k => (pyColIdx n k).isSome) = true) :
    ∃ (pre : List α) (feats : List (Tensor α)),
      discForward σ n wts ⟨[b, 3, h, w], xd⟩ ⟨[b, 3, h, w], yd⟩ (.tensor ks) =
        .ok (⟨[b], pre.map σ⟩, feats) ∧ pre.length = b ∧ feats.length = 8 := by
  subst hlen
  have h1 : 2 ≤ h := by omega
  have h2 : 2 ≤ h / 2 := by omega
  have h3 : 2 ≤ h / 2 / 2 := by omega
  have h4 : 2 ≤ h / 2 / 2 / 2 := by omega
  have h5 : 2 ≤ h / 2 / 2 / 2 / 2 := by omega
  have h6 : 2 ≤ h / 2 / 2 / 2 / 2 / 2 := by omega
  have h7 : 0 < h / 2 / 2 / 2 / 2 / 2 / 2 := by omega
  have g1 : 2 ≤ w := by omega
  have g2 : 2 ≤ w / 2 := by omega
  have g3 : 2 ≤ w / 2 / 2 := by omega
  have g4 : 2 ≤ w / 2 / 2 / 2 := by omega
  have g5 : 2 ≤ w / 2 / 2 / 2 / 2 := by omega
  have g6 : 2 ≤ w / 2 / 2 / 2 / 2 / 2 := by omega
  have g7 : 0 < w / 2 / 2 / 2 / 2 / 2 / 2 := by omega
  have ha1 : (((⟨[ks.length, 3, h, w], xd⟩ : Tensor α).dim == 4) &&
      ((⟨[ks.length, 3, h, w], xd⟩ : Tensor α).shape.get? 1 == some 3)) = true := by
    simp [Tensor.dim]
  have ha2 : ((⟨[ks.length, 3, h, w], xd⟩ : Tensor α).shape ==
      (⟨[ks.length, 3, h, w], yd⟩ : Tensor α).shape) = true := by
    simp
  obtain ⟨dc, ec⟩ := catDim1_ok (α := α) ks.length 3 3 h w xd yd
  norm_num at ec
  obtain ⟨d0, e0⟩ := RBDown_run_ok 6 64 wts.f1 ks.length h w dc h1 g1
  obtain ⟨d1, e1⟩ := RBDown_run_ok 64 128 wts.f2 ks.length (h / 2) (w / 2) d0 h2 g2
  obtain ⟨d2, e2⟩ := RBDown_run_ok 128 256 wts.f3 ks.length (h / 2 / 2) (w / 2 / 2) d1 h3 g3
  obtain ⟨d3, e3⟩ := SelfAtt_run_ok 256 wts.fatt ks.length (h / 2 / 2 / 2) (w / 2 / 2 / 2) d2
  obtain ⟨d4, e4⟩ := RBDown_run_ok 256 512 wts.f4 ks.length (h / 2 / 2 / 2) (w / 2 / 2 / 2) d3 h4 g4
  obtain ⟨d5, e5⟩ := RBDown_run_ok 512 512 wts.f5 ks.length (h / 2 / 2 / 2 / 2) (w / 2 / 2 / 2 / 2) d4 h5 g5
  obtain ⟨d6, e6⟩ := RBDown_run_ok 512 512 wts.f6 ks.length (h / 2 / 2 / 2 / 2 / 2) (w / 2 / 2 / 2 / 2 / 2) d5 h6 g6
  obtain ⟨d7, e7⟩ := RBSame_run_ok 512 wts.fres ks.length (h / 2 / 2 / 2 / 2 / 2 / 2) (w / 2 / 2 / 2 / 2 / 2 / 2) d6
  obtain ⟨dp, ep⟩ := adaptiveMaxPool11_ok ks.length 512 (h / 2 / 2 / 2 / 2 / 2 / 2) (w / 2 / 2 / 2 / 2 / 2 / 2) d7 h7 g7
  have ev := tensorView_pool_512 ks.length (dp.map fun v => max v 0)
  obtain ⟨dt, et⟩ := transposeDims12_ok ks.length 512 1 (dp.map fun v => max v 0)
  obtain ⟨dw, ew⟩ := selectCols_tensor_ok 512 n (wts.WVals.takeD ([512, n].prod) 0) ks hks
  obtain ⟨dtw, etw⟩ := transposeDims01_rank3_ok 512 ks.length 1 dw
  obtain ⟨dba, eba⟩ := broadcastAdd_col_ok ks.length dtw (wts.w0Vals.takeD ([512, 1].prod) 0)
  obtain ⟨dbm, ebm⟩ := bmm_ok ks.length 1 512 1 dt dba
  obtain ⟨dsc, esc⟩ := broadcastAdd_bias_ok ks.length dbm (wts.bVals.takeD ([1].prod) 0)
  have hlensc := broadcastAdd_length _ _ _ _ esc
  have efin := tensorView_scores ks.length (dsc.map σ)
  refine ⟨dsc,
    [⟨[ks.length, 64, h / 2, w / 2], d0⟩,
     ⟨[ks.length, 128, h / 2 / 2, w / 2 / 2], d1⟩,
     ⟨[ks.length, 256, h / 2 / 2 / 2, w / 2 / 2 / 2], d2⟩,
     ⟨[ks.length, 256, h / 2 / 2 / 2, w / 2 / 2 / 2], d3⟩,
     ⟨[ks.length, 512, h / 2 / 2 / 2 / 2, w / 2 / 2 / 2 / 2], d4⟩,
     ⟨[ks.length, 512, h / 2 / 2 / 2 / 2 / 2, w / 2 / 2 / 2 / 2 / 2], d5⟩,
     ⟨[ks.length, 512, h / 2 / 2 / 2 / 2 / 2 / 2, w / 2 / 2 / 2 / 2 / 2 / 2], d6⟩,
     ⟨[ks.length, 512, h / 2 / 2 / 2 / 2 / 2 / 2, w / 2 / 2 / 2 / 2 / 2 / 2], d7⟩],
    ?_, ?_, ?_⟩
  · simp only [discForward, pyAssert_ok ha1, pyAssert_ok ha2, except_ok_bind,
      ec, e0, e1, e2, e3, e4, e5, e6, e7, ep, Tensor.relu, ev, et, torchRand,
      ew, unsqueezeLast, List.cons_append, List.nil_append, etw, eba, ebm, esc,
      Tensor.mapData, List.getD_cons_zero, efin]
  · simpa using hlensc
  · rfl

/-- First assertion of `Discriminator.forward` fails. -/
lemma disc_forward_assert_fail1 (σ : α → α) (n : ℕ) (wts : DiscWeights α)
    (x y : Tensor α) (i : PyIndex)
    (hb : ((x.dim == 4) && (x.shape.get? 1 == some 3)) = false) :
    discForward σ n wts x y i = .error .assertionError := by
  simp only [discForward]
  rw [pyAssert_fail hb]
  simp only [except_error_bind]

/-- Second assertion of `Discriminator.forward` fails. -/
lemma disc_forward_assert_fail2 (σ : α → α) (n : ℕ) (wts : DiscWeights α)
    (x y : Tensor α) (i : PyIndex)
    (hb1 : ((x.dim == 4) && (x.shape.get? 1 == some 3)) = true)
    (hb2 : (x.shape == y.shape) = false) :
    discForward σ n wts x y i = .error .assertionError := by
  simp only [discForward]
  rw [pyAssert_ok hb1]
  simp only [except_ok_bind]
  rw [pyAssert_fail hb2]
  simp only [except_error_bind]

/-- When the column selection raises, `Discriminator.forward` propagates
the index error (the pipeline up to `W[:, i]` succeeds on well-formed
inputs). -/
lemma disc_forward_index_error (σ : α → α) (n : ℕ) (wts : DiscWeights α)
    (b h w : ℕ) (xd yd : List α) (i : PyIndex) (hh : 64 ≤ h) (hw : 64 ≤ w)
    (hfail : selectCols (torchRand [512, n] wts.WVals) i = .error .indexError) :
    discForward σ n wts ⟨[b, 3, h, w], xd⟩ ⟨[b, 3, h, w], yd⟩ i =
      .error .indexError := by
  have h1 : 2 ≤ h := by omega
  have h2 : 2 ≤ h / 2 := by omega
  have h3 : 2 ≤ h / 2 / 2 := by omega
  have h4 : 2 ≤ h / 2 / 2 / 2 := by omega
  have h5 : 2 ≤ h / 2 / 2 / 2 / 2 := by omega
  have h6 : 2 ≤ h / 2 / 2 / 2 / 2 / 2 := by omega
  have h7 : 0 < h / 2 / 2 / 2 / 2 / 2 / 2 := by omega
  have g1 : 2 ≤ w := by omega
  have g2 : 2 ≤ w / 2 := by omega
  have g3 : 2 ≤ w / 2 / 2 := by omega
  have g4 : 2 ≤ w / 2 / 2 / 2 := by omega
  have g5 : 2 ≤ w / 2 / 2 / 2 / 2 := by omega
  have g6 : 2 ≤ w / 2 / 2 / 2 / 2 / 2 := by omega
  have g7 : 0 < w / 2 / 2 / 2 / 2 / 2 / 2 := by omega
  have ha1 : (((⟨[b, 3, h, w], xd⟩ : Tensor α).dim == 4) &&
      ((⟨[b, 3, h, w], xd⟩ : Tensor α).shape.get? 1 == some 3)) = true := by
    simp [Tensor.dim]
  have ha2 : ((⟨[b, 3, h, w], xd⟩ : Tensor α).shape ==
      (⟨[b, 3, h, w], yd⟩ : Tensor α).shape) = true := by
    simp
  obtain ⟨dc, ec⟩ := catDim1_ok (α := α) b 3 3 h w xd yd
  norm_num at ec
  obtain ⟨d0, e0⟩ := RBDown_run_ok 6 64 wts.f1 b h w dc h1 g1
  obtain ⟨d1, e1⟩ := RBDown_run_ok 64 128 wts.f2 b (h / 2) (w / 2) d0 h2 g2
  obtain ⟨d2, e2⟩ := RBDown_run_ok 128 256 wts.f3 b (h / 2 / 2) (w / 2 / 2) d1 h3 g3
  obtain ⟨d3, e3⟩ := SelfAtt_run_ok 256 wts.fatt b (h / 2 / 2 / 2) (w / 2 / 2 / 2) d2
  obtain ⟨d4, e4⟩ := RBDown_run_ok 256 512 wts.f4 b (h / 2 / 2 / 2) (w / 2 / 2 / 2) d3 h4 g4
  obtain ⟨d5, e5⟩ := RBDown_run_ok 512 512 wts.f5 b (h / 2 / 2 / 2 / 2) (w / 2 / 2 / 2 / 2) d4 h5 g5
  obtain ⟨d6, e6⟩ := RBDown_run_ok 512 512 wts.f6 b (h / 2 / 2 / 2 / 2 / 2) (w / 2 / 2 / 2 / 2 / 2) d5 h6 g6
  obtain ⟨d7, e7⟩ := RBSame_run_ok 512 wts.fres b (h / 2 / 2 / 2 / 2 / 2 / 2) (w / 2 / 2 / 2 / 2 / 2 / 2) d6
  obtain ⟨dp, ep⟩ := adaptiveMaxPool11_ok b 512 (h / 2 / 2 / 2 / 2 / 2 / 2) (w / 2 / 2 / 2 / 2 / 2 / 2) d7 h7 g7
  have ev := tensorView_pool_512 b (dp.map fun v => max v 0)
  obtain ⟨dt, et⟩ := transposeDims12_ok b 512 1 (dp.map fun v => max v 0)
  simp only [discForward, pyAssert_ok ha1, pyAssert_ok ha2, except_ok_bind,
    ec, e0, e1, e2, e3, e4, e5, e6, e7, ep, Tensor.relu, ev, et, hfail,
    except_error_bind]

/-- With a plain Python-int index whose value is in range, the column
selection succeeds but yields a rank-1 column, and the subsequent
`torch.bmm` receives a rank-2 second operand and raises — so scalar-index
calls to `Discriminator.forward` fail for every in-range index. -/
lemma disc_forward_scalar_fail (σ : α → α) (n : ℕ) (wts : DiscWeights α)
    (b h w : ℕ) (xd yd : List α) (k : ℤ) (j : ℕ) (hh : 64 ≤ h) (hw : 64 ≤ w)
    (hj : pyColIdx n k = some j) :
    discForward σ n wts ⟨[b, 3, h, w], xd⟩ ⟨[b, 3, h, w], yd⟩ (.scalar k) =
      .error .runtimeError := by
  have h1 : 2 ≤ h := by omega
  have h2 : 2 ≤ h / 2 := by omega
  have h3 : 2 ≤ h / 2 / 2 := by omega
  have h4 : 2 ≤ h / 2 / 2 / 2 := by omega
  have h5 : 2 ≤ h / 2 / 2 / 2 / 2 := by omega
  have h6 : 2 ≤ h / 2 / 2 / 2 / 2 / 2 := by omega
  have h7 : 0 < h / 2 / 2 / 2 / 2 / 2 / 2 := by omega
  have g1 : 2 ≤ w := by omega
  have g2 : 2 ≤ w / 2 := by omega
  have g3 : 2 ≤ w / 2 / 2 := by omega
  have g4 : 2 ≤ w / 2 / 2 / 2 := by omega
  have g5 : 2 ≤ w / 2 / 2 / 2 / 2 := by omega
  have g6 : 2 ≤ w / 2 / 2 / 2 / 2 / 2 := by omega
  have g7 : 0 < w / 2 / 2 / 2 / 2 / 2 / 2 := by omega
  have ha1 : (((⟨[b, 3, h, w], xd⟩ : Tensor α).dim == 4) &&
      ((⟨[b, 3, h, w], xd⟩ : Tensor α).shape.get? 1 == some 3)) = true := by
    simp [Tensor.dim]
  have ha2 : ((⟨[b, 3, h, w], xd⟩ : Tensor α).shape ==
      (⟨[b, 3, h, w], yd⟩ : Tensor α).shape) = true := by
    simp
  obtain ⟨dc, ec⟩ := catDim1_ok (α := α) b 3 3 h w xd yd
  norm_num at ec
  obtain ⟨d0, e0⟩ := RBDown_run_ok 6 64 wts.f1 b h w dc h1 g1
  obtain ⟨d1, e1⟩ := RBDown_run_ok 64 128 wts.f2 b (h / 2) (w / 2) d0 h2 g2
  obtain ⟨d2, e2⟩ := RBDown_run_ok 128 256 wts.f3 b (h / 2 / 2) (w / 2 / 2) d1 h3 g3
  obtain ⟨d3, e3⟩ := SelfAtt_run_ok 256 wts.fatt b (h / 2 / 2 / 2) (w / 2 / 2 / 2) d2
  obtain ⟨d4, e4⟩ := RBDown_run_ok 256 512 wts.f4 b (h / 2 / 2 / 2) (w / 2 / 2 / 2) d3 h4 g4
  obtain ⟨d5, e5⟩ := RBDown_run_ok 512 512 wts.f5 b (h / 2 / 2 / 2 / 2) (w / 2 / 2 / 2 / 2) d4 h5 g5
  obtain ⟨d6, e6⟩ := RBDown_run_ok 512 512 wts.f6 b (h / 2 / 2 / 2 / 2 / 2) (w / 2 / 2 / 2 / 2 / 2) d5 h6 g6
  obtain ⟨d7, e7⟩ := RBSame_run_ok 512 wts.fres b (h / 2 / 2 / 2 / 2 / 2 / 2) (w / 2 / 2 / 2 / 2 / 2 / 2) d6
  obtain ⟨dp, ep⟩ := adaptiveMaxPool11_ok b 512 (h / 2 / 2 / 2 / 2 / 2 / 2) (w / 2 / 2 / 2 / 2 / 2 / 2) d7 h7 g7
  have ev := tensorView_pool_512 b (dp.map fun v => max v 0)
  obtain ⟨dt, et⟩ := transposeDims12_ok b 512 1 (dp.map fun v => max v 0)
  obtain ⟨dw, ew⟩ := selectCols_scalar_ok 512 n (wts.WVals.takeD ([512, n].prod) 0) k j hj
  obtain ⟨dtw, etw⟩ := transposeDims01_rank2_ok 512 1 dw
  obtain ⟨dba, eba⟩ := broadcastAdd_outer_ok dtw (wts.w0Vals.takeD ([512, 1].prod) 0)
  have ebm := bmm_rank2_fail [b, 1, 512] 512 512 dt dba
  simp only [discForward, pyAssert_ok ha1, pyAssert_ok ha2, except_ok_bind,
    ec, e0, e1, e2, e3, e4, e5, e6, e7, ep, Tensor.relu, ev, et, torchRand,
    ew, unsqueezeLast, List.cons_append, List.nil_append, etw, eba, ebm,
    except_error_bind]

/-- For an in-bounds negative index, Python indexing selects the column
counted from the end: `pyColIdx` agrees on `k` and on `k + n`. -/
lemma pyColIdx_shift (n : ℕ) (k : ℤ) (h1 : -(n : ℤ) ≤ k) (h2 : k < 0) :
    pyColIdx n k = pyColIdx n (k + n) := by
  simp only [pyColIdx]
  rw [if_pos h2, if_neg (by omega : ¬ (k + (n : ℤ) < 0))]

lemma all_congr_on {β : Type} (l : List β) (p q : β → Bool)
    (h : ∀ x ∈ l, p x = q x) : l.all p = l.all q := by
  induction l with
  | nil => rfl
  | cons a t ih =>
    simp only [List.all_cons, h a (by simp)]
    rw [ih fun x hx => h x (by simp [hx])]

/-- Selecting columns by a tensor of in-bounds negative indices is the
same as selecting by the equivalent nonnegative indices `k + n`. -/
lemma selectCols_tensor_shift (r n : ℕ) (wd : List α) (ks : List ℤ)
    (hneg : ∀ k ∈ ks, -(n : ℤ) ≤ k ∧ k < 0) :
    selectCols ⟨[r, n], wd⟩ (.tensor ks) =
      selectCols ⟨[r, n], wd⟩ (.tensor (ks.map fun k => k + (n : ℤ))) := by
  have hid : ∀ k ∈ ks, pyColIdx n k = pyColIdx n (k + n) := fun k hk =>
    pyColIdx_shift n k (hneg k hk).1 (hneg k hk).2
  have hall : (ks.all fun k => (pyColIdx n k).isSome) =
      ((ks.map fun k : ℤ => k + (n : ℤ)).all fun k => (pyColIdx n k).isSome) := by
    rw [List.all_map]
    exact all_congr_on ks _ _ fun k hk => by
      rw [Function.comp_apply, hid k hk]
  have hget : ∀ a : ℕ,
      (pyColIdx n (ks.getD (a % ks.length) 0)).getD 0 =
      (pyColIdx n ((ks.map fun k : ℤ => k + (n : ℤ)).getD (a % ks.length) 0)).getD 0 := by
    intro a
    rcases eq_or_ne ks [] with rfl | hne
    · simp
    · have hl : 0 < ks.length := List.length_pos.mpr hne
      have hlt : a % ks.length < ks.length := Nat.mod_lt a hl
      rw [List.getD_eq_getElem ks 0 hlt,
        List.getD_eq_getElem _ 0 (by rw [List.length_map]; exact hlt)]
      rw [List.getElem_map]
      rw [hid _ (List.getElem_mem hlt)]
  simp only [selectCols]
  rw [hall, List.length_map]
  cases hc : ((ks.map fun k : ℤ => k + (n : ℤ)).all fun k => (pyColIdx n k).isSome) with
  | false => simp
  | true =>
    simp only [ite_true]
    congr 1
    simp only [Tensor.mk.injEq, true_and]
    refine List.map_congr_left fun a _ => ?_
    rw [hget a]

/-- Success path of `Embedder.forward` on a rank-4, 3-channel input with
both spatial sizes at least 64. -/
lemma embedder_forward_ok (wts : EmbWeights α) (b h w : ℕ) (xd : List α)
    (hh : 64 ≤ h) (hw : 64 ≤ w) :
    ∃ dd, embedderForward wts ⟨[b, 3, h, w], xd⟩ = .ok ⟨[b, 512], dd⟩ := by
  have h1 : 2 ≤ h := by omega
  have h2 : 2 ≤ h / 2 := by omega
  have h3 : 2 ≤ h / 2 / 2 := by omega
  have h4 : 2 ≤ h / 2 / 2 / 2 := by omega
  have h5 : 2 ≤ h / 2 / 2 / 2 / 2 := by omega
  have h6 : 2 ≤ h / 2 / 2 / 2 / 2 / 2 := by omega
  have h7 : 0 < h / 2 / 2 / 2 / 2 / 2 / 2 := by omega
  have g1 : 2 ≤ w := by omega
  have g2 : 2 ≤ w / 2 := by omega
  have g3 : 2 ≤ w / 2 / 2 := by omega
  have g4 : 2 ≤ w / 2 / 2 / 2 := by omega
  have g5 : 2 ≤ w / 2 / 2 / 2 / 2 := by omega
  have g6 : 2 ≤ w / 2 / 2 / 2 / 2 / 2 := by omega
  have g7 : 0 < w / 2 / 2 / 2 / 2 / 2 / 2 := by omega
  have ha1 : (((⟨[b, 3, h, w], xd⟩ : Tensor α).dim == 4) &&
      ((⟨[b, 3, h, w], xd⟩ : Tensor α).shape.get? 1 == some 3)) = true := by
    simp [Tensor.dim]
  obtain ⟨d1, e1⟩ := RBDown_run_ok 3 64 wts.f1 b h w xd h1 g1
  obtain ⟨d2, e2⟩ := RBDown_run_ok 64 128 wts.f2 b (h / 2) (w / 2) d1 h2 g2
  obtain ⟨d3, e3⟩ := RBDown_run_ok 128 256 wts.f3 b (h / 2 / 2) (w / 2 / 2) d2 h3 g3
  obtain ⟨da, ea⟩ := SelfAtt_run_ok 256 wts.fatt b (h / 2 / 2 / 2) (w / 2 / 2 / 2) d3
  obtain ⟨d4, e4⟩ := RBDown_run_ok 256 512 wts.f4 b (h / 2 / 2 / 2) (w / 2 / 2 / 2) da h4 g4
  obtain ⟨d5, e5⟩ := RBDown_run_ok 512 512 wts.f5 b (h / 2 / 2 / 2 / 2) (w / 2 / 2 / 2 / 2) d4 h5 g5
  obtain ⟨d6, e6⟩ := RBDown_run_ok 512 512 wts.f6 b (h / 2 / 2 / 2 / 2 / 2) (w / 2 / 2 / 2 / 2 / 2) d5 h6 g6
  obtain ⟨dp, ep⟩ := adaptiveMaxPool11_ok b 512 (h / 2 / 2 / 2 / 2 / 2 / 2) (w / 2 / 2 / 2 / 2 / 2 / 2) d6 h7 g7
  have ev := tensorView_pool_E b dp
  refine ⟨dp.map fun v => max v 0, ?_⟩
  simp only [embedderForward, pyAssert_ok ha1, except_ok_bind, e1, e2, e3, ea,
    e4, e5, e6, ep, E_VECTOR_LENGTH, Nat.cast_ofNat, ev, Tensor.relu]

/-- The entry assertion of `Embedder.forward` fails on a non-rank-4 or
non-3-channel input. -/
lemma embedder_forward_assert_fail (wts : EmbWeights α) (x : Tensor α)
    (hb : ((x.dim == 4) && (x.shape.get? 1 == some 3)) = false) :
    embedderForward wts x = .error .assertionError := by
  simp only [embedderForward]
  rw [pyAssert_fail hb]
  simp only [except_error_bind]

end OpLemmas

/-! ## The real logistic function (`torch.sigmoid`) -/

/-- `torch.sigmoid`, idealized over the reals. -/
noncomputable def sigmoidReal (x : ℝ) : ℝ := 1 / (1 + Real.exp (-x))

lemma sigmoidReal_nonneg (x : ℝ) : 0 ≤ sigmoidReal x := by
  unfold sigmoidReal
  positivity

lemma sigmoidReal_le_one (x : ℝ) : sigmoidReal x ≤ 1 := by
  unfold sigmoidReal
  rw [div_le_one (by positivity)]
  have h := Real.exp_pos (-x)
  linarith

/-! ## Concrete (zero) weights used by the witnesses -/

/-- A Discriminator weight assignment with empty opaque data. -/
def zeroWeights (α : Type) [LinearOrderedField α] : DiscWeights α where
  f1 := fun _ => []
  f2 := fun _ => []
  f3 := fun _ => []
  fatt := fun _ => []
  f4 := fun _ => []
  f5 := fun _ => []
  f6 := fun _ => []
  fres := fun _ => []
  WVals := []
  w0Vals := []
  bVals := []

/-- An Embedder weight assignment with empty opaque data. -/
def zeroEmbWeights (α : Type) [LinearOrderedField α] : EmbWeights α where
  f1 := fun _ => []
  f2 := fun _ => []
  f3 := fun _ => []
  fatt := fun _ => []
  f4 := fun _ => []
  f5 := fun _ => []
  f6 := fun _ => []

/-! ## Claim theorems for the Embedder and Discriminator -/

/-- C8.  `Embedder.forward` succeeds on every valid batch of rank-4,
3-channel square images (spatial size at least the pipeline's minimum of
64) with output shape `[batch, E_VECTOR_LENGTH]`, and fails with an
assertion error on every input violating the rank-4/3-channel
precondition. -/
theorem embedder_forward_contract :
    (∀ (wts : EmbWeights ℝ) (b h : ℕ) (xd : List ℝ), 64 ≤ h →
      ∃ t, embedderForward wts ⟨[b, 3, h, h], xd⟩ = .ok t ∧
        t.shape = [b, E_VECTOR_LENGTH]) ∧
    (∀ (wts : EmbWeights ℝ) (x : Tensor ℝ),
      ¬ (x.dim = 4 ∧ x.shape.get? 1 = some 3) →
      embedderForward wts x = .error .assertionError) := by
  constructor
  · intro wts b h xd hh
    obtain ⟨dd, e⟩ := embedder_forward_ok wts b h h xd hh hh
    exact ⟨⟨[b, 512], dd⟩, e, rfl⟩
  · intro wts x h
    have hb : ((x.dim == 4) && (x.shape.get? 1 == some 3)) = false := by
      rcases Bool.eq_false_or_eq_true ((x.dim == 4) && (x.shape.get? 1 == some 3)) with ht | hf
      · exfalso
        apply h
        simpa [Bool.and_eq_true, beq_iff_eq] using ht
      · exact hf
    exact embedder_forward_assert_fail wts x hb

/-- Witness for C8: a batch of 2 square 64x64 images succeeds with shape
`[2, E_VECTOR_LENGTH]`; a rank-2 input fails the assertion. -/
theorem embedder_forward_contract_witness :
    ((64 : ℕ) ≤ 64) ∧
    (∃ t, embedderForward (zeroEmbWeights ℝ) ⟨[2, 3, 64, 64], []⟩ = .ok t ∧
      t.shape = [2, E_VECTOR_LENGTH]) ∧
    (¬ ((⟨[2, 2], ([] : List ℝ)⟩ : Tensor ℝ).dim = 4 ∧
        (⟨[2, 2], ([] : List ℝ)⟩ : Tensor ℝ).shape.get? 1 = some 3)) ∧
    embedderForward (zeroEmbWeights ℝ) ⟨[2, 2], []⟩ = .error .assertionError :=
  ⟨by norm_num,
   embedder_forward_contract.1 (zeroEmbWeights ℝ) 2 64 [] (by norm_num),
   by decide,
   embedder_forward_contract.2 (zeroEmbWeights ℝ) ⟨[2, 2], []⟩ (by decide)⟩

/-- C4.  `Discriminator.forward` fails with an assertion error whenever
`x.shape != y.shape` or the channel count is not 3; on every well-formed
pair of same-shape rank-4 3-channel inputs (spatial sizes at least the
pipeline's minimum of 64, with one valid video id per sample) it returns
one scalar per batch sample, each in [0,1], together with exactly 8
intermediate feature maps. -/
theorem discriminator_forward_contract :
    (∀ (n : ℕ) (wts : DiscWeights ℝ) (x y : Tensor ℝ) (i : PyIndex),
      x.shape ≠ y.shape ∨ x.shape.get? 1 ≠ some 3 →
      discForward sigmoidReal n wts x y i = .error .assertionError) ∧
    (∀ (n : ℕ) (wts : DiscWeights ℝ) (b h w : ℕ) (xd yd : List ℝ) (ks : List ℤ),
      64 ≤ h → 64 ≤ w → ks.length = b → (∀ k ∈ ks, 0 ≤ k ∧ k < (n : ℤ)) →
      ∃ (score : Tensor ℝ) (feats : List (Tensor ℝ)),
        discForward sigmoidReal n wts ⟨[b, 3, h, w], xd⟩ ⟨[b, 3, h, w], yd⟩
          (.tensor ks) = .ok (score, feats) ∧
        score.shape = [b] ∧ score.data.length = b ∧
        (∀ v ∈ score.data, 0 ≤ v ∧ v ≤ 1) ∧ feats.length = 8) := by
  constructor
  · intro n wts x y i h
    cases hbool : ((x.dim == 4) && (x.shape.get? 1 == some 3)) with
    | false => exact disc_forward_assert_fail1 sigmoidReal n wts x y i hbool
    | true =>
      have hch : x.shape.get? 1 = some 3 := by
        simp only [Bool.and_eq_true, beq_iff_eq] at hbool
        exact hbool.2
      have hne : x.shape ≠ y.shape := h.resolve_right (not_not_intro hch)
      have hb2 : (x.shape == y.shape) = false := by
        rcases Bool.eq_false_or_eq_true (x.shape == y.shape) with ht | hf
        · exact absurd (by simpa [beq_iff_eq] using ht) hne
        · exact hf
      exact disc_forward_assert_fail2 sigmoidReal n wts x y i hbool hb2
  · intro n wts b h w xd yd ks hh hw hlen hrange
    have hks : (ks.all fun k => (pyColIdx n k).isSome) = true :=
      List.all_eq_true.mpr fun k hk =>
        pyColIdx_isSome_of_range n k (Or.inl (hrange k hk))
    obtain ⟨pre, feats, heq, hlenp, hlenf⟩ :=
      disc_forward_ok sigmoidReal n wts b h w xd yd ks hh hw hlen hks
    refine ⟨⟨[b], pre.map sigmoidReal⟩, feats, heq, rfl, by simp [hlenp], ?_, hlenf⟩
    intro v hv
    obtain ⟨u, _, rfl⟩ := List.mem_map.mp hv
    exact ⟨sigmoidReal_nonneg u, sigmoidReal_le_one u⟩

/-- Witness for C4: a mismatched pair fails the assertion; a well-formed
batch-1 pair of 64x64 inputs with id tensor `[0]` succeeds. -/
theorem discriminator_forward_contract_witness :
    (((⟨[1, 3, 64, 64], []⟩ : Tensor ℝ).shape ≠ (⟨[1, 3, 32, 32], []⟩ : Tensor ℝ).shape ∨
      (⟨[1, 3, 64, 64], []⟩ : Tensor ℝ).shape.get? 1 ≠ some 3) ∧
     discForward sigmoidReal 1 (zeroWeights ℝ) ⟨[1, 3, 64, 64], []⟩ ⟨[1, 3, 32, 32], []⟩
       (.tensor [0]) = .error .assertionError) ∧
    ∃ (score : Tensor ℝ) (feats : List (Tensor ℝ)),
      discForward sigmoidReal 1 (zeroWeights ℝ) ⟨[1, 3, 64, 64], []⟩ ⟨[1, 3, 64, 64], []⟩
        (.tensor [0]) = .ok (score, feats) ∧
      score.shape = [1] ∧ score.data.length = 1 ∧
      (∀ v ∈ score.data, 0 ≤ v ∧ v ≤ 1) ∧ feats.length = 8 :=
  ⟨⟨Or.inl (by decide),
    discriminator_forward_contract.1 1 (zeroWeights ℝ) _ _ (.tensor [0]) (Or.inl (by decide))⟩,
   discriminator_forward_contract.2 1 (zeroWeights ℝ) 1 64 64 [] [] [0]
     (by norm_num) (by norm_num) rfl (by decide)⟩

/-- C5 counterexample.  With `training_videos = 10` and an in-range plain
Python-int video index 3, `Discriminator.forward` does not succeed: the
selected column of `W` is rank-1, so after `unsqueeze`/`transpose` and
broadcasting against `w_0`, `torch.bmm` receives a rank-2 second operand
and raises — calling with an in-range index therefore fails when the
index is given as a plain integer. -/
theorem discriminator_scalar_index_fails :
    discForward sigmoidReal 10 (zeroWeights ℝ) ⟨[1, 3, 64, 64], []⟩
      ⟨[1, 3, 64, 64], []⟩ (.scalar 3) = .error .runtimeError :=
  disc_forward_scalar_fail sigmoidReal 10 (zeroWeights ℝ) 1 64 64 [] [] 3 3
    (by norm_num) (by norm_num) (by decide)

/-- C5 amended.  For a Discriminator with `training_videos = 10` on
well-formed inputs: an out-of-range index 10 fails with an index error
(both as a plain int and inside an index tensor); an index tensor with
one id per sample, all in [0,10), succeeds and returns one scalar per
sample; and a plain-int index fails at the batched matrix multiply even
when in range, so the successful call form is the integer-tensor one. -/
theorem discriminator_index_range_amended :
    (∀ (wts : DiscWeights ℝ) (b h w : ℕ) (xd yd : List ℝ), 64 ≤ h → 64 ≤ w →
      discForward sigmoidReal 10 wts ⟨[b, 3, h, w], xd⟩ ⟨[b, 3, h, w], yd⟩
        (.scalar 10) = .error .indexError) ∧
    (∀ (wts : DiscWeights ℝ) (b h w : ℕ) (xd yd : List ℝ) (ks : List ℤ),
      64 ≤ h → 64 ≤ w → (10 : ℤ) ∈ ks →
      discForward sigmoidReal 10 wts ⟨[b, 3, h, w], xd⟩ ⟨[b, 3, h, w], yd⟩
        (.tensor ks) = .error .indexError) ∧
    (∀ (wts : DiscWeights ℝ) (b h w : ℕ) (xd yd : List ℝ) (ks : List ℤ),
      64 ≤ h → 64 ≤ w → ks.length = b → (∀ k ∈ ks, 0 ≤ k ∧ k < (10 : ℤ)) →
      ∃ (score : Tensor ℝ) (feats : List (Tensor ℝ)),
        discForward sigmoidReal 10 wts ⟨[b, 3, h, w], xd⟩ ⟨[b, 3, h, w], yd⟩
          (.tensor ks) = .ok (score, feats) ∧
        score.shape = [b] ∧ (∀ v ∈ score.data, 0 ≤ v ∧ v ≤ 1)) ∧
    (∀ (wts : DiscWeights ℝ) (b h w : ℕ) (xd yd : List ℝ) (k : ℤ) (j : ℕ),
      64 ≤ h → 64 ≤ w → pyColIdx 10 k = some j →
      discForward sigmoidReal 10 wts ⟨[b, 3, h, w], xd⟩ ⟨[b, 3, h, w], yd⟩
        (.scalar k) = .error .runtimeError) := by
  refine ⟨?_, ?_, ?_, ?_⟩
  · intro wts b h w xd yd hh hw
    apply disc_forward_index_error sigmoidReal 10 wts b h w xd yd _ hh hw
    simp only [torchRand]
    exact selectCols_scalar_fail 512 10 _ 10 (by decide)
  · intro wts b h w xd yd ks hh hw hmem
    apply disc_forward_index_error sigmoidReal 10 wts b h w xd yd _ hh hw
    simp only [torchRand]
    apply selectCols_tensor_fail 512 10 _ ks
    exact List.all_eq_false.mpr ⟨10, hmem, by decide⟩
  · intro wts b h w xd yd ks hh hw hlen hrange
    have hks : (ks.all fun k => (pyColIdx 10 k).isSome) = true :=
      List.all_eq_true.mpr fun k hk =>
        pyColIdx_isSome_of_range 10 k (Or.inl (hrange k hk))
    obtain ⟨pre, feats, heq, hlenp, hlenf⟩ :=
      disc_forward_ok sigmoidReal 10 wts b h w xd yd ks hh hw hlen hks
    refine ⟨⟨[b], pre.map sigmoidReal⟩, feats, heq, rfl, ?_⟩
    intro v hv
    obtain ⟨u, _, rfl⟩ := List.mem_map.mp hv
    exact ⟨sigmoidReal_nonneg u, sigmoidReal_le_one u⟩
  · intro wts b h w xd yd k j hh hw hj
    exact disc_forward_scalar_fail sigmoidReal 10 wts b h w xd yd k j hh hw hj

/-- Witness for the amended C5 at batch 1, 64x64 inputs. -/
theorem discriminator_index_range_amended_witness :
    (discForward sigmoidReal 10 (zeroWeights ℝ) ⟨[1, 3, 64, 64], []⟩
      ⟨[1, 3, 64, 64], []⟩ (.scalar 10) = .error .indexError) ∧
    (discForward sigmoidReal 10 (zeroWeights ℝ) ⟨[1, 3, 64, 64], []⟩
      ⟨[1, 3, 64, 64], []⟩ (.tensor [10]) = .error .indexError) ∧
    (∃ (score : Tensor ℝ) (feats : List (Tensor ℝ)),
      discForward sigmoidReal 10 (zeroWeights ℝ) ⟨[1, 3, 64, 64], []⟩
        ⟨[1, 3, 64, 64], []⟩ (.tensor [9]) = .ok (score, feats) ∧
      score.shape = [1] ∧ (∀ v ∈ score.data, 0 ≤ v ∧ v ≤ 1)) ∧
    (discForward sigmoidReal 10 (zeroWeights ℝ) ⟨[1, 3, 64, 64], []⟩
      ⟨[1, 3, 64, 64], []⟩ (.scalar 0) = .error .runtimeError) :=
  ⟨discriminator_index_range_amended.1 (zeroWeights ℝ) 1 64 64 [] []
     (by norm_num) (by norm_num),
   discriminator_index_range_amended.2.1 (zeroWeights ℝ) 1 64 64 [] [] [10]
     (by norm_num) (by norm_num) (by decide),
   discriminator_index_range_amended.2.2.1 (zeroWeights ℝ) 1 64 64 [] [] [9]
     (by norm_num) (by norm_num) rfl (by decide),
   discriminator_index_range_amended.2.2.2 (zeroWeights ℝ) 1 64 64 [] [] 0 0
     (by norm_num) (by norm_num) (by decide)⟩

/-- C10.  With the index given as an integer tensor of in-bounds negative
ids in [-n,-1], `Discriminator.forward` does not fail: negative indexing
silently selects columns of `W` counted from the end — the call behaves
exactly as the call with the equivalent nonnegative ids `k + n` — so the
lower bound of the valid-id range is not enforced at the public
interface. -/
theorem discriminator_negative_index_accepted
    (n : ℕ) (wts : DiscWeights ℝ) (b h w : ℕ) (xd yd : List ℝ) (ks : List ℤ)
    (hh : 64 ≤ h) (hw : 64 ≤ w) (hlen : ks.length = b)
    (hneg : ∀ k ∈ ks, -(n : ℤ) ≤ k ∧ k < 0) :
    (∃ (score : Tensor ℝ) (feats : List (Tensor ℝ)),
      discForward sigmoidReal n wts ⟨[b, 3, h, w], xd⟩ ⟨[b, 3, h, w], yd⟩
        (.tensor ks) = .ok (score, feats)) ∧
    discForward sigmoidReal n wts ⟨[b, 3, h, w], xd⟩ ⟨[b, 3, h, w], yd⟩
      (.tensor ks) =
    discForward sigmoidReal n wts ⟨[b, 3, h, w], xd⟩ ⟨[b, 3, h, w], yd⟩
      (.tensor (ks.map fun k => k + (n : ℤ))) := by
  constructor
  · have hks : (ks.all fun k => (pyColIdx n k).isSome) = true :=
      List.all_eq_true.mpr fun k hk =>
        pyColIdx_isSome_of_range n k (Or.inr (hneg k hk))
    obtain ⟨pre, feats, heq, _, _⟩ :=
      disc_forward_ok sigmoidReal n wts b h w xd yd ks hh hw hlen hks
    exact ⟨_, _, heq⟩
  · have hsel := selectCols_tensor_shift 512 n
      (wts.WVals.takeD ([512, n].prod) 0) ks hneg
    simp only [discForward, torchRand, hsel]

/-- Witness for C10 at `n = 10`, index tensor `[-1]`. -/
theorem discriminator_negative_index_accepted_witness :
    (∃ (score : Tensor ℝ) (feats : List (Tensor ℝ)),
      discForward sigmoidReal 10 (zeroWeights ℝ) ⟨[1, 3, 64, 64], []⟩
        ⟨[1, 3, 64, 64], []⟩ (.tensor [-1]) = .ok (score, feats)) ∧
    discForward sigmoidReal 10 (zeroWeights ℝ) ⟨[1, 3, 64, 64], []⟩
      ⟨[1, 3, 64, 64], []⟩ (.tensor [-1]) =
    discForward sigmoidReal 10 (zeroWeights ℝ) ⟨[1, 3, 64, 64], []⟩
      ⟨[1, 3, 64, 64], []⟩ (.tensor ([-1].map fun k => k + (10 : ℤ))) :=
  discriminator_negative_index_accepted 10 (zeroWeights ℝ) 1 64 64 [] [] [-1]
    (by norm_num) (by norm_num) rfl (by decide)

end DTH
